import Mathlib

/-!
Shallow embedding of `src/monitor.py`, a terminal CPU/memory usage monitor.
Python floats are modelled as rationals (ℚ); every value the claims touch is
an exact decimal, so no floating-point rounding is lost.  Python exceptions
are modelled with an explicit error type and `Except`.  Absent metric values
(`None`) are modelled with `Option`.
-/

namespace Monitor

/-- Python exception kinds that the embedded code can raise. -/
inductive PyErr where
  | valueError
  | typeError
  | indexError
deriving DecidableEq

/-- Round half to even, the rounding used by Python `round()` and by `%.1f`
formatting on exactly representable values. -/
def rhe (q : ℚ) : ℤ :=
  if q - ⌊q⌋ < 1/2 then ⌊q⌋
  else if 1/2 < q - ⌊q⌋ then ⌊q⌋ + 1
  else if ⌊q⌋ % 2 = 0 then ⌊q⌋ else ⌊q⌋ + 1

/-- Decimal rendering of a tenths count: `123 ↦ "12.3"`, `-5 ↦ "-0.5"`. -/
def digits10 (s : ℤ) : String :=
  (if s < 0 then "-" else "")
    ++ toString (s.natAbs / 10) ++ "." ++ toString (s.natAbs % 10)

/-- Python `f"{x:.1f}"` for a rational: one decimal digit, round half to even. -/
def fmt1 (q : ℚ) : String := digits10 (rhe (10 * q))

/-- Right-align in a field of width 5 with spaces, as Python `f"{x:5.1f}"`. -/
def pad5 (s : String) : String :=
  if s.length < 5 then String.mk (List.replicate (5 - s.length) ' ') ++ s else s

/-- Python `f"{x:5.1f}"`. -/
def fmt51 (q : ℚ) : String := pad5 (fmt1 q)

/-- Embedding of `format_line` from `monitor.py` (lines 128-138): each present metric is
rendered with `{:5.1f}`, an absent one as `N/A`, the two parts joined by
`" | "`. -/
def format_line (cpu mem : Option ℚ) : String :=
  (match cpu with
    | some c => "CPU: " ++ fmt51 c ++ "%"
    | none => "CPU: N/A")
  ++ " | " ++
  (match mem with
    | some m => "Memory: " ++ fmt51 m ++ "%"
    | none => "Memory: N/A")

/-- Embedding of `row_for` from `monitor.py` (lines 184-187):
`(height - 1) - int(round((value / 100.0) * (height - 1)))`. -/
def row_for (height : ℕ) (value : ℚ) : ℤ :=
  ((height : ℤ) - 1) - rhe ((value / 100) * ((height : ℚ) - 1))

/-- The display-boundary conversion in the graph loop (lines 168-169):
`0.0 if v is None else max(0.0, min(100.0, v))`. -/
def displayValue (v : Option ℚ) : ℚ :=
  match v with
  | none => 0
  | some x => max 0 (min 100 x)

/-- One append step of the history buffers in the graph loop (lines 168-169). -/
def appendSample (cpuHist memHist : List ℚ) (cpu mem : Option ℚ) :
    List ℚ × List ℚ :=
  (cpuHist ++ [displayValue cpu], memHist ++ [displayValue mem])

/-- Invariant of the history buffers: every stored value lies in [0, 100]. -/
def InRange (l : List ℚ) : Prop := ∀ x ∈ l, 0 ≤ x ∧ x ≤ 100

/-! ### Characterizations of `rhe` used to evaluate it on concrete inputs -/

theorem rhe_eq_low {q : ℚ} {n : ℤ} (h0 : (n : ℚ) ≤ q) (h1 : q < (n : ℚ) + 1/2) :
    rhe q = n := by
  have hf : ⌊q⌋ = n := Int.floor_eq_iff.mpr ⟨h0, by linarith⟩
  unfold rhe
  rw [hf, if_pos (by linarith)]

theorem rhe_eq_high {q : ℚ} {n : ℤ} (h0 : (n : ℚ) - 1/2 < q) (h1 : q < (n : ℚ)) :
    rhe q = n := by
  have hf : ⌊q⌋ = n - 1 := by
    apply Int.floor_eq_iff.mpr
    constructor
    · push_cast; linarith
    · push_cast; linarith
  unfold rhe
  rw [hf]
  rw [if_neg (by push_cast; linarith), if_pos (by push_cast; linarith)]
  omega

theorem rhe_half (m : ℤ) :
    rhe ((m : ℚ) + 1/2) = if m % 2 = 0 then m else m + 1 := by
  have hf : ⌊(m : ℚ) + 1/2⌋ = m := by
    apply Int.floor_eq_iff.mpr
    constructor
    · linarith
    · linarith
  unfold rhe
  rw [hf]
  rw [if_neg (by norm_num), if_neg (by norm_num)]

theorem rhe_intCast (n : ℤ) : rhe ((n : ℚ)) = n := by
  apply rhe_eq_low le_rfl
  norm_num

/-! ### Text parsing helpers shared by the platform samplers

The standard `String` functions walk byte positions and do not reduce in the
kernel, so the embedding works on the underlying character lists with
structural recursion. -/

instance {ε α : Type} [DecidableEq ε] [DecidableEq α] : DecidableEq (Except ε α) :=
  fun a b =>
    match a, b with
    | .ok x, .ok y =>
      if h : x = y then .isTrue (by rw [h]) else .isFalse (by simp [h])
    | .ok _, .error _ => .isFalse (by simp)
    | .error _, .ok _ => .isFalse (by simp)
    | .error x, .error y =>
      if h : x = y then .isTrue (by rw [h]) else .isFalse (by simp [h])

/-- Split a character list at every character satisfying `p`, keeping empty
pieces (the semantics of Python `str.split(sep)` for a one-character `sep`
when `p` tests for `sep`). -/
def splitBy (p : Char → Bool) : List Char → List (List Char)
  | [] => [[]]
  | c :: rest =>
    if p c then [] :: splitBy p rest
    else
      match splitBy p rest with
      | [] => [[c]]
      | h :: t => (c :: h) :: t

/-- Characters of a string with surrounding whitespace removed,
Python `str.strip()`. -/
def trimChars (cs : List Char) : List Char :=
  ((cs.dropWhile Char.isWhitespace).reverse.dropWhile Char.isWhitespace).reverse

/-- Python `str.strip()`. -/
def pyStrip (s : String) : String := String.mk (trimChars s.data)

/-- Python `str.startswith(p)` on character lists. -/
def startsWithChars : List Char → List Char → Bool
  | [], _ => true
  | _ :: _, [] => false
  | c :: cs, d :: ds => c = d && startsWithChars cs ds

/-- Python `str.startswith(p)`. -/
def pyStartsWith (s p : String) : Bool := startsWithChars p.data s.data

/-- Concatenate character lists with a separator, Python `sep.join(...)`. -/
def joinWith (sep : List Char) : List (List Char) → List Char
  | [] => []
  | [x] => x
  | x :: xs => x ++ sep ++ joinWith sep xs

/-- Python `str.split()` with no arguments: split on runs of whitespace,
dropping empty pieces. -/
def splitWs (s : String) : List String :=
  ((splitBy Char.isWhitespace s.data).map String.mk).filter (fun t => t ≠ "")

/-- Value of a list of decimal digit characters. -/
def digitsToNat (ds : List Char) : ℕ :=
  ds.foldl (fun a c => 10 * a + (c.toNat - 48)) 0

/-- Digit-string parser: `some` exactly when nonempty and all digits. -/
def parseNatDigits (ds : List Char) : Option ℕ :=
  if ds ≠ [] ∧ ds.all Char.isDigit then some (digitsToNat ds) else none

/-- Python `int(s)` restricted to the shapes the monitor meets: an optional
sign followed by decimal digits.  `none` models a `ValueError`. -/
def parseInt (s : String) : Option ℤ :=
  match s.data with
  | '-' :: rest => (parseNatDigits rest).map (fun n => -(n : ℤ))
  | '+' :: rest => (parseNatDigits rest).map (fun n => (n : ℤ))
  | ds => (parseNatDigits ds).map (fun n => (n : ℤ))

/-- Fractional-part digits interpreted after an integer part:
the value of `w.f` is `digits(w ++ f) / 10 ^ |f|`. -/
def decimalValue (w f : List Char) : ℚ :=
  if f = [] then (digitsToNat w : ℚ)
  else (digitsToNat (w ++ f) : ℚ) / ((10 ^ f.length : ℕ) : ℚ)

/-- Python `float(s)` restricted to the shapes the monitor meets: an optional
sign, decimal digits, optionally a point and more digits.  `none` models a
`ValueError`. -/
def parseFloat (s : String) : Option ℚ :=
  let core : List Char → Option ℚ := fun ds =>
    match splitBy (fun c => c = '.') ds with
    | [w] => (parseNatDigits w).map (fun n => (n : ℚ))
    | [w, f] =>
      if (w ≠ [] ∨ f ≠ []) ∧ w.all Char.isDigit ∧ f.all Char.isDigit then
        some (decimalValue w f)
      else none
    | _ => none
  match s.data with
  | '-' :: rest => (core rest).map (fun q => -q)
  | '+' :: rest => (core rest).map (fun q => q)
  | ds => core ds

/-- One step of splitting a CSV record, fuelled so that the kernel can
evaluate it (each step consumes one or two characters, so `|cs|` fuel is
enough).  `cur` is the field being read, `inQ` whether we are inside a
double-quoted section, `acc` the finished fields. -/
def csvSplitF (fuel : ℕ) (cs : List Char) (cur : List Char) (inQ : Bool)
    (acc : List String) : List String :=
  match fuel, cs with
  | _, [] => acc ++ [String.mk cur]
  | 0, _ => acc ++ [String.mk cur]
  | fuel + 1, c :: rest =>
    if inQ then
      match c, rest with
      | '"', '"' :: rest2 => csvSplitF fuel rest2 (cur ++ ['"']) true acc
      | '"', _ => csvSplitF fuel rest cur false acc
      | _, _ => csvSplitF fuel rest (cur ++ [c]) true acc
    else
      if c = ',' then csvSplitF fuel rest [] false (acc ++ [String.mk cur])
      else if c = '"' ∧ cur = [] then csvSplitF fuel rest [] true acc
      else csvSplitF fuel rest (cur ++ [c]) false acc

/-- Split one line as a CSV record, as Python `csv.reader` does with the
default dialect (comma separator, double-quote quoting). -/
def parseCSVRow (s : String) : List String :=
  csvSplitF (s.length + 1) s.data [] false []

/-- Python `next(csv.reader(io.StringIO(line)), [])`: an empty line yields no
record at all, anything else yields one record. -/
def csvFirstRow (s : String) : List String :=
  if s = "" then [] else parseCSVRow s

/-- Drop one trailing carriage return, for `\r\n` line endings. -/
def dropTrailingCR (cs : List Char) : List Char :=
  if cs.getLast? = some '\r' then cs.dropLast else cs

/-- Python `str.splitlines()` restricted to `\n` / `\r\n` separators (the only
ones the modelled sources produce). -/
def splitLines (s : String) : List String :=
  (splitBy (fun c => c = '\n') s.data).map (fun l => String.mk (dropTrailingCR l))

/-! ### Windows sampler: `_read_windows_typeperf` (lines 11-51) -/

/-- Outcome of `subprocess.run` on the counter-query utility: either the
binary is absent (`FileNotFoundError`) or it produced some stdout text. -/
inductive RunResult where
  | notFound
  | output (stdout : String)

/-- Embedding of `_read_windows_typeperf` (lines 11-51) as a function of the subprocess
outcome.  The last non-empty stdout line is the data row; any failure
(missing binary, fewer than 3 non-empty lines, fewer than 3 CSV columns,
numeric parse failure) yields `(none, none)`.  The Python catches the only
exceptions its body can raise (`FileNotFoundError`, `ValueError`), so the
embedding is a total function. -/
def read_windows_typeperf (res : RunResult) : Option ℚ × Option ℚ :=
  match res with
  | .notFound => (none, none)
  | .output out =>
    let lines := (splitLines out).filter (fun l => pyStrip l ≠ "")
    if 3 ≤ lines.length then
      let data_line := lines.getLastD ""
      let row := csvFirstRow data_line
      if 3 ≤ row.length then
        match parseFloat (row.getD 1 ""), parseFloat (row.getD 2 "") with
        | some cpu, some mem => (some cpu, some mem)
        | _, _ => (none, none)
      else (none, none)
    else (none, none)

/-! ### Linux sampler: `_read_linux_proc` (lines 54-96) -/

/-- Embedding of `read_cpu_times` (lines 56-66) over the lines of `/proc/stat`.  The first
line starting with `"cpu "` is parsed: all numeric fields are converted with
`int` (a malformed field raises `ValueError`), `idle = nums[3] + nums[4]`
(`nums[3]` raises `IndexError` when fewer than 4 fields, `nums[4]` is guarded),
`total = sum(nums)`.  When no such line exists the Python returns bare `None`. -/
def read_cpu_times : List String → Except PyErr (Option (ℤ × ℤ))
  | [] => .ok none
  | line :: rest =>
    if pyStartsWith line "cpu " then
      match ((splitWs line).drop 1).mapM parseInt with
      | none => .error .valueError
      | some nums =>
        match nums.get? 3 with
        | none => .error .indexError
        | some n3 =>
          .ok (some (n3 + (if 4 < nums.length then nums.getD 4 0 else 0), nums.sum))
    else read_cpu_times rest

/-- The CPU delta computation (lines 74-76): percentage from two snapshots,
absent unless the total delta is positive.  The comparison is on Python
ints. -/
def cpu_percent_of (idle1 total1 idle2 total2 : ℤ) : Option ℚ :=
  if 0 < total2 - total1 then
    some (100 * (1 - ((idle2 - idle1 : ℤ) : ℚ) / ((total2 - total1 : ℤ) : ℚ)))
  else none

/-- The `meminfo` dictionary build (lines 81-85): each line is split at the
first `:`; a line without `:` raises `ValueError` (unpacking a 1-element
split).  Later lines overwrite earlier keys, which lookup models by
preferring the last binding. -/
def build_meminfo : List String → Except PyErr (List (String × String))
  | [] => .ok []
  | line :: rest =>
    match splitBy (fun c => c = ':') line.data with
    | [] => .error .valueError
    | [_] => .error .valueError
    | k :: vs =>
      match build_meminfo rest with
      | .error e => .error e
      | .ok d =>
        .ok ((String.mk (trimChars k), String.mk (trimChars (joinWith [':'] vs))) :: d)

/-- Embedding of `kb(name)` (lines 86-88): first whitespace token of the entry (default
`"0 kB"`), converted with `float`.  An empty entry raises `IndexError`, a
malformed number `ValueError`. -/
def kb_of (d : List (String × String)) (name : String) : Except PyErr ℚ :=
  match splitWs ((d.reverse.lookup name).getD "0 kB") with
  | [] => .error .indexError
  | w :: _ =>
    match parseFloat w with
    | none => .error .valueError
    | some x => .ok x

/-- The body of the memory `try` block (lines 81-92). -/
def mem_calc (lines : List String) : Except PyErr (Option ℚ) :=
  match build_meminfo lines with
  | .error e => .error e
  | .ok d =>
    match kb_of d "MemTotal" with
    | .error e => .error e
    | .ok total =>
      match kb_of d "MemAvailable" with
      | .error e => .error e
      | .ok avail => .ok (if 0 < total then some (100 * (1 - avail / total)) else none)

/-- Memory percentage (lines 78-94): the whole computation sits in a
`try/except Exception: pass`, so every raised error leaves `mem = None`. -/
def mem_from_lines (lines : List String) : Option ℚ :=
  match mem_calc lines with
  | .ok m => m
  | .error _ => none

/-- Embedding of `_read_linux_proc` (lines 54-96) over the two `/proc/stat` snapshots and
the `/proc/meminfo` lines.  `idle1, total1 = read_cpu_times()` raises
`TypeError` when the helper returned bare `None` (nothing to unpack), so the
`if idle1 is None` guard in the source is unreachable and the CPU section can
raise to the caller. -/
def read_linux_proc (stat1 stat2 meminfo : List String) :
    Except PyErr (Option ℚ × Option ℚ) :=
  match read_cpu_times stat1 with
  | .error e => .error e
  | .ok none => .error .typeError
  | .ok (some (idle1, total1)) =>
    match read_cpu_times stat2 with
    | .error e => .error e
    | .ok none => .error .typeError
    | .ok (some (idle2, total2)) =>
      .ok (cpu_percent_of idle1 total1 idle2 total2, mem_from_lines meminfo)

/-! ### Backend selector: `read_metrics` (lines 109-125) -/

/-- The platform dispatch in `read_metrics`: Windows, a system with
`/proc/stat` present, or anything else. -/
inductive SysPlatform where
  | windows
  | linuxProc
  | other

/-- Embedding of `read_metrics` (lines 109-125) as a function of the three backends'
results: the psutil result is returned only when both of its components are
present; otherwise the platform-matching backend's result is returned
unchanged, and `(none, none)` when no platform matches. -/
def read_metrics (psutilRes : Option ℚ × Option ℚ) (plat : SysPlatform)
    (winRes linuxRes : Option ℚ × Option ℚ) : Option ℚ × Option ℚ :=
  if psutilRes.1.isSome ∧ psutilRes.2.isSome then psutilRes
  else
    match plat with
    | .windows => winRes
    | .linuxProc => linuxRes
    | .other => (none, none)

/-! ### Canvas marking and the graph loop (lines 165-222) -/

/-- The marks one column `x` of the canvas receives (lines 189-196): the
canvas rows start all blank; on equal rows a single `@` is written, otherwise
`#` at the CPU row then `*` at the MEM row. -/
def markColumn (height : ℕ) (rc rm : ℕ) : List Char :=
  if rc = rm then (List.replicate height ' ').set rc '@'
  else ((List.replicate height ' ').set rc '#').set rm '*'

/-- The sample-count control flow of the graph loop (lines 164-220): `count`
starts at 0, each iteration takes one sample and increments it, and the loop
breaks when `samples > 0 and count >= samples`.  Fuel bounds the modelled
iterations; `some n` means the loop exited after taking `n` samples. -/
def graphLoop (samples : ℕ) : ℕ → ℕ → Option ℕ
  | 0, _ => none
  | fuel + 1, count =>
    if 0 < samples ∧ samples ≤ count + 1 then some (count + 1)
    else graphLoop samples fuel (count + 1)

/-! ### Bounds for `rhe` -/

theorem rhe_ge_floor (q : ℚ) : ⌊q⌋ ≤ rhe q := by
  unfold rhe
  split_ifs <;> omega

theorem rhe_nonneg {q : ℚ} (h : 0 ≤ q) : 0 ≤ rhe q :=
  le_trans (Int.floor_nonneg.mpr h) (rhe_ge_floor q)

theorem rhe_le {q : ℚ} {n : ℤ} (h : q ≤ (n : ℚ)) : rhe q ≤ n := by
  have hfl : ⌊q⌋ ≤ n := by
    calc ⌊q⌋ ≤ ⌊(n : ℚ)⌋ := Int.floor_le_floor h
    _ = n := Int.floor_intCast n
  have hstrict : (⌊q⌋ : ℚ) < q → ⌊q⌋ < n := by
    intro hq
    exact_mod_cast lt_of_lt_of_le hq h
  unfold rhe
  split_ifs with h1 h2 h3
  · exact hfl
  · have := hstrict (by linarith)
    omega
  · exact hfl
  · have := hstrict (by linarith)
    omega

/-! ### Helper lemmas for the claim theorems -/

theorem displayValue_bounds (v : Option ℚ) :
    0 ≤ displayValue v ∧ displayValue v ≤ 100 := by
  cases v with
  | none => exact ⟨le_refl 0, by norm_num [displayValue]⟩
  | some x =>
    exact ⟨le_max_left 0 _, max_le (by norm_num) (min_le_left 100 x)⟩

theorem InRange_append {l : List ℚ} (h : InRange l) {d : ℚ}
    (hd : 0 ≤ d ∧ d ≤ 100) : InRange (l ++ [d]) := by
  intro x hx
  rcases List.mem_append.mp hx with h1 | h2
  · exact h x h1
  · rw [List.mem_singleton] at h2
    rw [h2]
    exact hd

theorem graphLoop_reaches (samples : ℕ) (hpos : 0 < samples) :
    ∀ fuel count, count < samples → samples ≤ count + fuel →
      graphLoop samples fuel count = some samples := by
  intro fuel
  induction fuel with
  | zero =>
    intro count h1 h2
    omega
  | succ n ih =>
    intro count h1 h2
    unfold graphLoop
    by_cases hc : samples ≤ count + 1
    · rw [if_pos ⟨hpos, hc⟩]
      have he : samples = count + 1 := by omega
      rw [he]
    · rw [if_neg (by omega)]
      exact ih (count + 1) (by omega) (by omega)

theorem graphLoop_short (samples : ℕ) :
    ∀ fuel count, count + fuel < samples → graphLoop samples fuel count = none := by
  intro fuel
  induction fuel with
  | zero =>
    intro count _
    rfl
  | succ n ih =>
    intro count h
    unfold graphLoop
    rw [if_neg (by omega)]
    exact ih (count + 1) (by omega)

end Monitor

namespace Monitor

/-! ## Claim theorems -/

/-- C4: for every pair of CPU counter snapshots `(idle1, total1)`,
`(idle2, total2)`, the computed cpu percentage equals
`100 * (1 - (idle2-idle1)/(total2-total1))` when `total2 > total1` and is
absent otherwise; the snapshots `(100, 1000)` then `(110, 1100)` yield 90.0. -/
theorem c4_cpu_delta (idle1 total1 idle2 total2 : ℤ) :
    (total1 < total2 →
      cpu_percent_of idle1 total1 idle2 total2 =
        some (100 * (1 - ((idle2 : ℚ) - (idle1 : ℚ)) / ((total2 : ℚ) - (total1 : ℚ))))) ∧
    (¬ total1 < total2 → cpu_percent_of idle1 total1 idle2 total2 = none) ∧
    cpu_percent_of 100 1000 110 1100 = some 90 := by
  refine ⟨?_, ?_, ?_⟩
  · intro h
    unfold cpu_percent_of
    rw [if_pos (by omega)]
    congr 1
    push_cast
    ring
  · intro h
    unfold cpu_percent_of
    rw [if_neg (by omega)]
  · unfold cpu_percent_of
    norm_num

theorem c4_cpu_delta_witness :
    cpu_percent_of 100 1000 110 1100 =
      some (100 * (1 - ((110 : ℚ) - (100 : ℚ)) / ((1100 : ℚ) - (1000 : ℚ)))) :=
  (c4_cpu_delta 100 1000 110 1100).1 (by decide)

/-- C6: every value appended to the history buffers by the display loop lies
in [0, 100]: an absent metric becomes 0.0 and a present one is clamped at the
sampling-to-rendering boundary, so the in-range invariant of the history is
preserved by every append. -/
theorem c6_append_in_range (cpuHist memHist : List ℚ) (cpu mem : Option ℚ)
    (hc : InRange cpuHist) (hm : InRange memHist) :
    InRange (appendSample cpuHist memHist cpu mem).1 ∧
    InRange (appendSample cpuHist memHist cpu mem).2 :=
  ⟨InRange_append hc (displayValue_bounds cpu),
   InRange_append hm (displayValue_bounds mem)⟩

theorem c6_append_in_range_witness :
    InRange (appendSample [] [] (some 150) none).1 ∧
    InRange (appendSample [] [] (some 150) none).2 :=
  c6_append_in_range [] [] (some 150) none
    (by intro x hx; cases hx) (by intro x hx; cases hx)

/-- C7: for every canvas height at least 10, the value-to-row mapping sends
value 0 to the bottom row `height - 1` and value 100 to the top row 0. -/
theorem c7_row_endpoints (height : ℕ) (_h : 10 ≤ height) :
    row_for height 0 = (height : ℤ) - 1 ∧ row_for height 100 = 0 := by
  constructor
  · unfold row_for
    have h0 : ((0 : ℚ) / 100) * ((height : ℚ) - 1) = ((0 : ℤ) : ℚ) := by norm_num
    rw [h0, rhe_intCast]
    ring
  · unfold row_for
    have h1 : ((100 : ℚ) / 100) * ((height : ℚ) - 1) = (((height : ℤ) - 1 : ℤ) : ℚ) := by
      push_cast
      ring
    rw [h1, rhe_intCast]
    ring

theorem c7_row_endpoints_witness :
    row_for 10 0 = 9 ∧ row_for 10 100 = 0 := by
  have h := c7_row_endpoints 10 (by norm_num)
  norm_num at h
  exact h

/-- C9: when the sample-count limit is positive, the graph loop exits with
exactly that many samples taken: any fuel of at least `samples` iterations
makes it stop at `samples`, and fewer iterations never reach the exit. -/
theorem c9_sample_limit (samples : ℕ) (h : 0 < samples) :
    (∀ fuel, samples ≤ fuel → graphLoop samples fuel 0 = some samples) ∧
    (∀ fuel, fuel < samples → graphLoop samples fuel 0 = none) := by
  constructor
  · intro fuel hf
    exact graphLoop_reaches samples h fuel 0 h (by omega)
  · intro fuel hf
    exact graphLoop_short samples fuel 0 (by omega)

theorem c9_sample_limit_witness :
    graphLoop 3 3 0 = some 3 ∧ graphLoop 3 2 0 = none :=
  ⟨(c9_sample_limit 3 (by norm_num)).1 3 (le_refl 3),
   (c9_sample_limit 3 (by norm_num)).2 2 (by norm_num)⟩

/-- C10: for every value in [0, 100] and height at least 1, `row_for` lands in
[0, height-1], so with the clamped history values every canvas write in graph
mode is in bounds. -/
theorem c10_row_for_bounds (height : ℕ) (v : ℚ) (hh : 1 ≤ height)
    (h0 : 0 ≤ v) (h100 : v ≤ 100) :
    0 ≤ row_for height v ∧ row_for height v ≤ (height : ℤ) - 1 := by
  have hc : (0 : ℚ) ≤ (height : ℚ) - 1 := by
    have h1 : (1 : ℚ) ≤ (height : ℚ) := by exact_mod_cast hh
    linarith
  have hx0 : 0 ≤ (v / 100) * ((height : ℚ) - 1) :=
    mul_nonneg (div_nonneg h0 (by norm_num)) hc
  have hx1 : (v / 100) * ((height : ℚ) - 1) ≤ (((height : ℤ) - 1 : ℤ) : ℚ) := by
    have hv : v / 100 ≤ 1 := (div_le_one (by norm_num)).mpr h100
    push_cast
    exact mul_le_of_le_one_left hc hv
  have hr0 : 0 ≤ rhe ((v / 100) * ((height : ℚ) - 1)) := rhe_nonneg hx0
  have hr1 : rhe ((v / 100) * ((height : ℚ) - 1)) ≤ (height : ℤ) - 1 := rhe_le hx1
  unfold row_for
  omega

theorem c10_row_for_bounds_witness :
    0 ≤ row_for 10 50 ∧ row_for 10 50 ≤ (10 : ℤ) - 1 :=
  c10_row_for_bounds 10 50 (by norm_num) (by norm_num) (by norm_num)

/-- C1 counterexample: with the library-backed sampler returning
`(55.0, None)` and the platform backend returning `(None, 60.0)`, the claim
predicts `(None, None)`, but `read_metrics` returns the platform backend's
partial result `(None, 60.0)` unchanged. -/
theorem c1_partial_counterexample :
    read_metrics (some 55, none) SysPlatform.linuxProc (none, none) (none, some 60) =
      (none, some 60) ∧
    read_metrics (some 55, none) SysPlatform.linuxProc (none, none) (none, some 60) ≠
      ((none : Option ℚ), (none : Option ℚ)) := by
  decide

/-- C1 (amended): only the library-backed sampler's result is subject to the
both-values-present test; when it is partial (or empty) the selector falls to
the platform-matching backend and returns that backend's result unchanged,
partial or not, with `(None, None)` when no platform matches. -/
theorem c1_selector_fallthrough (c m : Option ℚ) (plat : SysPlatform)
    (w l : Option ℚ × Option ℚ) :
    (c.isSome = true → m.isSome = true → read_metrics (c, m) plat w l = (c, m)) ∧
    (¬ (c.isSome = true ∧ m.isSome = true) →
      read_metrics (c, m) plat w l =
        match plat with
        | .windows => w
        | .linuxProc => l
        | .other => (none, none)) := by
  constructor
  · intro h1 h2
    unfold read_metrics
    rw [if_pos ⟨h1, h2⟩]
  · intro h
    unfold read_metrics
    rw [if_neg h]

theorem c1_selector_fallthrough_witness :
    read_metrics (some 55, none) SysPlatform.linuxProc (none, none) (none, some 60) =
      (none, some 60) :=
  (c1_selector_fallthrough (some 55) none SysPlatform.linuxProc
    (none, none) (none, some 60)).2 (by simp)

/-- C5: `format_line` renders present values with `{:5.1f}`, substitutes
`N/A` for absent ones, joins the two fields with `" | "`, and in particular
maps `(12.34, 56.78)` to `"CPU:  12.3% | Memory:  56.8%"` and `(None, 99.95)`
to `"CPU: N/A | Memory: 100.0%"`. -/
theorem c5_format_line_spec :
    (∀ c m : ℚ, format_line (some c) (some m) =
      "CPU: " ++ fmt51 c ++ "%" ++ " | " ++ ("Memory: " ++ fmt51 m ++ "%")) ∧
    (∀ m : ℚ, format_line none (some m) =
      "CPU: N/A" ++ " | " ++ ("Memory: " ++ fmt51 m ++ "%")) ∧
    (∀ c : ℚ, format_line (some c) none =
      "CPU: " ++ fmt51 c ++ "%" ++ " | " ++ "Memory: N/A") ∧
    (format_line none none = "CPU: N/A | Memory: N/A") ∧
    format_line (some (1234/100)) (some (5678/100)) = "CPU:  12.3% | Memory:  56.8%" ∧
    format_line none (some (9995/100)) = "CPU: N/A | Memory: 100.0%" := by
  refine ⟨fun c m => rfl, fun m => rfl, fun c => rfl, by decide, ?_, ?_⟩
  · have h1 : rhe (10 * (1234/100 : ℚ)) = 123 :=
      rhe_eq_low (by push_cast; norm_num) (by push_cast; norm_num)
    have h2 : rhe (10 * (5678/100 : ℚ)) = 568 :=
      rhe_eq_high (by push_cast; norm_num) (by push_cast; norm_num)
    simp only [format_line, fmt51, fmt1, h1, h2]
    decide
  · have e : (10 : ℚ) * (9995/100) = ((999 : ℤ) : ℚ) + 1/2 := by push_cast; norm_num
    have h : rhe (10 * (9995/100 : ℚ)) = 1000 := by
      rw [e, rhe_half]
      decide
    simp only [format_line, fmt51, fmt1, h]
    decide

/-- C8: in each rendered column, when the cpu and mem rows coincide the
column holds exactly one overlap marker `@` at that row and no `#` or `*`
anywhere; otherwise `#` sits at the cpu row, `*` at the mem row, the mem
write never overwriting the cpu write, and every other row stays blank. -/
theorem c8_column_markers (height rc rm : ℕ) (hrc : rc < height) (hrm : rm < height) :
    (rc = rm →
      (markColumn height rc rm).getD rc ' ' = '@' ∧
      ∀ r, r < height → r ≠ rc → (markColumn height rc rm).getD r ' ' = ' ') ∧
    (rc ≠ rm →
      (markColumn height rc rm).getD rc ' ' = '#' ∧
      (markColumn height rc rm).getD rm ' ' = '*' ∧
      ∀ r, r < height → r ≠ rc → r ≠ rm →
        (markColumn height rc rm).getD r ' ' = ' ') := by
  constructor
  · intro he
    unfold markColumn
    rw [if_pos he]
    constructor
    · simp [List.getD_eq_getElem?_getD, List.getElem?_set_self, hrc]
    · intro r hr hne
      simp [List.getD_eq_getElem?_getD, List.getElem?_set_ne (by omega : rc ≠ r),
        List.getElem?_replicate_of_lt hr]
  · intro hne
    unfold markColumn
    rw [if_neg hne]
    refine ⟨?_, ?_, ?_⟩
    · simp [List.getD_eq_getElem?_getD, List.getElem?_set_ne (by omega : rm ≠ rc),
        List.getElem?_set_self, hrc]
    · simp [List.getD_eq_getElem?_getD, List.getElem?_set_self, hrm]
    · intro r hr hnc hnm
      simp [List.getD_eq_getElem?_getD, List.getElem?_set_ne (by omega : rm ≠ r),
        List.getElem?_set_ne (by omega : rc ≠ r), List.getElem?_replicate_of_lt hr]

/-- C2 (code evaluated at the failing inputs): a parse failure on the CPU
statistics source is NOT converted to an absent cpu value — a malformed
numeric field raises `ValueError` and a missing `cpu ` line raises
`TypeError` (unpacking the bare `None` return) to the caller of
`_read_linux_proc`, even with a well-formed memory source.  The memory half
of the claim does hold: a memory-source parse failure (missing colon,
malformed number) yields `mem = None` with the cpu result unaffected and no
exception. -/
theorem c2_linux_parse_evaluation :
    read_linux_proc ["cpu abc 1 2 3"] ["cpu abc 1 2 3"]
        ["MemTotal: 1000 kB", "MemAvailable: 250 kB"] = .error .valueError ∧
    read_linux_proc ["intr 5 6"] ["intr 5 6"]
        ["MemTotal: 1000 kB", "MemAvailable: 250 kB"] = .error .typeError ∧
    read_linux_proc ["cpu 100 200 300 400"] ["cpu 110 220 330 440"]
        ["MemTotal 1000 kB"] = .ok (cpu_percent_of 400 1000 440 1100, none) ∧
    read_linux_proc ["cpu 100 200 300 400"] ["cpu 110 220 330 440"]
        ["MemTotal: abc kB", "MemAvailable: 250 kB"] =
      .ok (cpu_percent_of 400 1000 440 1100, none) :=
  ⟨by decide, by decide, by rfl, by rfl⟩

/-- C3 counterexample: an output of one header line plus one valid data line
(two non-empty lines) is rejected — the code demands at least three non-empty
lines — so the claim's "after at least one header line plus a data line are
present" reading fails: the function returns `(none, none)` although the last
line is a parseable 3-column data row. -/
theorem c3_two_line_counterexample :
    ((splitLines "h1\n\"t\",\"50.000000\",\"60.000000\"").filter
        (fun l => pyStrip l ≠ "")).length = 2 ∧
    csvFirstRow "\"t\",\"50.000000\",\"60.000000\"" = ["t", "50.000000", "60.000000"] ∧
    (parseFloat "50.000000").isSome = true ∧
    (parseFloat "60.000000").isSome = true ∧
    read_windows_typeperf (.output "h1\n\"t\",\"50.000000\",\"60.000000\"") =
      (none, none) := by
  decide

/-- C3 (amended): the Windows sampler treats the last non-empty output line
as the data row only once at least three non-empty lines are present (two
header lines plus a data line); whenever the utility binary is absent, fewer
than three non-empty lines appear, the data row has fewer than 3
comma-separated columns, or the numeric parse of the cpu or mem column
fails, it returns `(none, none)` without raising to the caller. -/
theorem c3_typeperf_behavior (out : String) :
    read_windows_typeperf RunResult.notFound = (none, none) ∧
    (((splitLines out).filter (fun l => pyStrip l ≠ "")).length < 3 →
      read_windows_typeperf (.output out) = (none, none)) ∧
    (∀ dl, 3 ≤ ((splitLines out).filter (fun l => pyStrip l ≠ "")).length →
      ((splitLines out).filter (fun l => pyStrip l ≠ "")).getLastD "" = dl →
      ((csvFirstRow dl).length < 3 →
        read_windows_typeperf (.output out) = (none, none)) ∧
      (3 ≤ (csvFirstRow dl).length →
        ((parseFloat ((csvFirstRow dl).getD 1 "") = none ∨
          parseFloat ((csvFirstRow dl).getD 2 "") = none) →
          read_windows_typeperf (.output out) = (none, none)) ∧
        (∀ cv mv, parseFloat ((csvFirstRow dl).getD 1 "") = some cv →
          parseFloat ((csvFirstRow dl).getD 2 "") = some mv →
          read_windows_typeperf (.output out) = (some cv, some mv)))) := by
  refine ⟨rfl, ?_, ?_⟩
  · intro hlt
    simp only [read_windows_typeperf]
    rw [if_neg (by omega)]
  · intro dl h3 hlast
    constructor
    · intro hrow
      simp only [read_windows_typeperf]
      rw [hlast, if_pos h3, if_neg (by omega)]
    · intro hrowlen
      constructor
      · intro hbad
        simp only [read_windows_typeperf]
        rw [hlast, if_pos h3, if_pos hrowlen]
        rcases hbad with hb | hb
        · rw [hb]
        · rcases hp : parseFloat ((csvFirstRow dl).getD 1 "") with _ | v
          · rfl
          · rw [hb]
      · intro cv mv hc hm
        simp only [read_windows_typeperf]
        rw [hlast, if_pos h3, if_pos hrowlen, hc, hm]

theorem c3_typeperf_behavior_witness :
    read_windows_typeperf (.output "x") = (none, none) ∧
    read_windows_typeperf (.output "h1\nh2\n\"t\",\"2.5\",\"40.5\"") =
      (some (decimalValue ['2'] ['5']), some (decimalValue ['4', '0'] ['5'])) :=
  ⟨(c3_typeperf_behavior "x").2.1 (by decide),
   (((c3_typeperf_behavior "h1\nh2\n\"t\",\"2.5\",\"40.5\"").2.2 "\"t\",\"2.5\",\"40.5\""
      (by decide) (by decide)).2 (by decide)).2
      (decimalValue ['2'] ['5']) (decimalValue ['4', '0'] ['5']) rfl rfl⟩

theorem c8_column_markers_witness :
    ((markColumn 10 4 4).getD 4 ' ' = '@' ∧ (markColumn 10 4 4).getD 5 ' ' = ' ') ∧
    ((markColumn 10 2 7).getD 2 ' ' = '#' ∧ (markColumn 10 2 7).getD 7 ' ' = '*') :=
  ⟨⟨((c8_column_markers 10 4 4 (by decide) (by decide)).1 rfl).1,
    ((c8_column_markers 10 4 4 (by decide) (by decide)).1 rfl).2 5 (by decide) (by decide)⟩,
   ⟨((c8_column_markers 10 2 7 (by decide) (by decide)).2 (by decide)).1,
    ((c8_column_markers 10 2 7 (by decide) (by decide)).2 (by decide)).2.1⟩⟩

end Monitor
